import Mathlib

/-!
# FBES Self-Assessment Tool — verification of the scoring backend

A shallow embedding of `backend/main.py` and `backend/models.py`:
the static category catalog, the responses map stored on an assessment,
the scoring / recommendation computation of `complete_assessment`,
the merge of `update_responses`, and the ownership-scoped and
registration handlers.  Numbers are modelled as rationals; Python
dictionaries are modelled as association lists with first-match lookup.
-/

namespace FBES

/-- A question of the static catalog (`categories.json`): id, text, an
optional impact multiplier (Python `question.get("impact", 1.0)`) and
optional guidance text (`question.get("guidance", "")`). -/
structure Question where
  id : String
  text : String
  impact : Option ℚ
  guidance : Option String
  deriving Repr, DecidableEq

/-- A category of the catalog: id (the code applies `str` to it, so we keep
it as a string), display name, weight, and its ordered questions. -/
structure Category where
  id : String
  name : String
  weight : ℚ
  questions : List Question
  deriving Repr, DecidableEq

/-- The static catalog: `CATEGORIES_DATA["categories"]`. -/
structure Catalog where
  categories : List Category
  deriving Repr, DecidableEq

/-- One stored response leaf `{answer, notes}`; either key may be absent in
the stored JSON, hence the options (`.get("answer", "no")` in the code). -/
structure ResponseEntry where
  answer : Option String
  notes : Option String
  deriving Repr, DecidableEq

/-- First-match lookup in an association list, the model of Python
`dict.get(k)` (dict keys are unique, so first match is the match). -/
def alookup {α : Type} (m : List (String × α)) (k : String) : Option α :=
  (m.find? (fun p => p.1 == k)).map (·.2)

/-- The per-category responses dict: question id → `{answer, notes}`. -/
abbrev CatResponses := List (String × ResponseEntry)

/-- The assessment's responses map: category id → question id → entry. -/
abbrev Responses := List (String × CatResponses)

/-- `responses.get(cat_id, {})`: the category's responses dict, defaulting
to the empty dict. -/
def catResponsesFor (r : Responses) (catId : String) : CatResponses :=
  (alookup r catId).getD []

/-- `responses.get(cat_id, {}).get(q_id, {})`: the response leaf for a
question, defaulting to the empty dict (which has no `answer` key). -/
def entryFor (r : Responses) (catId qId : String) : ResponseEntry :=
  (alookup (catResponsesFor r catId) qId).getD ⟨none, none⟩

/-- The stored answer string for a question, if any (no `"no"` default). -/
def rawAnswer (r : Responses) (catId qId : String) : Option String :=
  (entryFor r catId qId).answer

/-- `responses.get(cat_id, {}).get(q_id, {}).get("answer", "no")`. -/
def answerFor (r : Responses) (catId qId : String) : String :=
  (rawAnswer r catId qId).getD "no"

/-- `question.get("impact", 1.0)`. -/
def questionImpact (q : Question) : ℚ :=
  q.impact.getD 1

/-- Points attained by one question given its answer string and impact:
`2*impact` for `"yes"`, `1*impact` for `"partial"`, else `0`. -/
def qAttained (ans : String) (impact : ℚ) : ℚ :=
  if ans = "yes" then 2 * impact
  else if ans = "partial" then impact
  else 0

/-- Rounding to one decimal place, the model of Python `round(x, 1)`. -/
def round1 (x : ℚ) : ℚ :=
  (round (x * 10) : ℤ) / 10

/-- Rounding to two decimal places, the model of Python `round(x, 2)`. -/
def round2 (x : ℚ) : ℚ :=
  (round (x * 100) : ℤ) / 100

/-- One value of the `category_scores` dict produced on completion. -/
structure CategoryScore where
  name : String
  raw_score : ℚ
  weighted_score : ℚ
  status : String
  deriving Repr, DecidableEq

/-- One entry of the recommendation list produced on completion. -/
structure Recommendation where
  category : String
  question : String
  current_answer : String
  guidance : String
  impact : ℚ
  priority_score : ℚ
  deriving Repr, DecidableEq

/-- The candidate recommendation built for one question (the dict
appended inside the recommendation loop of `complete_assessment`). -/
def mkRec (c : Category) (q : Question) (ans : String) : Recommendation :=
  { category := c.name
    question := q.text
    current_answer := ans
    guidance := q.guidance.getD ""
    impact := questionImpact q
    priority_score := c.weight * questionImpact q * (if ans = "no" then 2 else 1) }

/-- The recommendation candidate emitted for one question, if any:
`some` exactly when the (defaulted) answer is `"no"` or `"partial"`. -/
def candidateFor (r : Responses) (c : Category) (q : Question) : Option Recommendation :=
  let ans := answerFor r c.id q.id
  if ans = "no" ∨ ans = "partial" then some (mkRec c q ans) else none

/-- All recommendation candidates in encounter order (category order, then
question order), before sorting and truncation. -/
def candidates (r : Responses) (cat : Catalog) : List Recommendation :=
  cat.categories.flatMap (fun c => c.questions.filterMap (candidateFor r c))

/-- Descending comparison on priority scores: the sort relation realising
`recommendations.sort(key=lambda x: x["priority_score"], reverse=True)`
(a stable descending sort). -/
def priorityGE (a b : Recommendation) : Prop :=
  b.priority_score ≤ a.priority_score

instance : DecidableRel priorityGE := fun a b =>
  inferInstanceAs (Decidable (b.priority_score ≤ a.priority_score))

instance : IsTotal Recommendation priorityGE :=
  ⟨fun a b => le_total b.priority_score a.priority_score⟩

instance : IsTrans Recommendation priorityGE :=
  ⟨fun _ _ _ h h' => le_trans h' h⟩

/-- The inner per-question accumulation of `complete_assessment`:
`(max_score, actual_score)` after folding over the category's questions. -/
def categoryPoints (r : Responses) (c : Category) : ℚ × ℚ :=
  c.questions.foldl
    (fun ma q =>
      let impact := questionImpact q
      let ans := answerFor r c.id q.id
      (ma.1 + 2 * impact, ma.2 + qAttained ans impact))
    (0, 0)

/-- The raw percentage computed for a category:
`(actual_score / max_score * 100) if max_score > 0 else 0`. -/
def rawPct (r : Responses) (c : Category) : ℚ :=
  let ma := categoryPoints r c
  if 0 < ma.1 then ma.2 / ma.1 * 100 else 0

/-- The status label of a category. -/
def statusOf (raw : ℚ) : String :=
  if 75 ≤ raw then "strong" else if 50 ≤ raw then "adequate" else "weak"

/-- The `category_scores` value recorded for one category. -/
def mkScore (c : Category) (raw : ℚ) : CategoryScore :=
  { name := c.name
    raw_score := round1 raw
    weighted_score := round2 (raw * c.weight)
    status := statusOf raw }

/-- The category loop of `complete_assessment`: accumulates
`total_weighted_score`, `total_weight` and the `category_scores` entries
in catalog order. -/
def completeFold (r : Responses) (cats : List Category) :
    ℚ × ℚ × List (String × CategoryScore) :=
  cats.foldl
    (fun acc c =>
      let raw := rawPct r c
      (acc.1 + raw * c.weight, acc.2.1 + c.weight, acc.2.2 ++ [(c.id, mkScore c raw)]))
    (0, 0, [])

/-- The readiness label derived from the overall score. -/
def readinessOf (overall : ℚ) : String :=
  if 75 ≤ overall then "ready" else if 50 ≤ overall then "promising" else "needs_work"

/-- The result record returned by `POST /api/assessments/{id}/complete`. -/
structure CompleteResult where
  overall_score : ℚ
  category_scores : List (String × CategoryScore)
  recommendations : List Recommendation
  readiness : String
  deriving Repr, DecidableEq

/-- The pure scoring/recommendation computation of `complete_assessment`,
as a function of the stored responses and the static catalog. -/
def completeResult (r : Responses) (cat : Catalog) : CompleteResult :=
  let acc := completeFold r cat.categories
  let overall := if 0 < acc.2.1 then round1 (acc.1 / acc.2.1) else 0
  let sorted := List.insertionSort priorityGE (candidates r cat)
  { overall_score := overall
    category_scores := acc.2.2
    recommendations := sorted.take 10
    readiness := readinessOf overall }

/-! ## The response merge of `update_responses`

`current = assessment.responses or {}` followed by `current.update(responses)`:
a Python `dict.update`, i.e. a shallow merge at the top (category) level. -/

/-- Python `old.update(new)` on dicts modelled as association lists:
same-keyed entries are overwritten in place, new keys are appended in
submission order. -/
def dictUpdate {α : Type} (old new : List (String × α)) : List (String × α) :=
  old.map (fun p => (p.1, (alookup new p.1).getD p.2)) ++
    new.filter (fun p => (alookup old p.1).isNone)

/-! ## Stored state and handlers

The relational rows of `models.py` and the handlers of `main.py` that the
claims mention, over an explicit in-memory table. -/

/-- The `users` table row (timestamps omitted; they carry no claim). -/
structure UserRec where
  id : Nat
  email : String
  hashed_password : String
  name : Option String
  organization : Option String
  deriving Repr, DecidableEq

/-- An HTTP error raised via `HTTPException`. -/
structure HttpError where
  status_code : Nat
  detail : String
  deriving Repr, DecidableEq

/-- The `assessments` table row, restricted to the fields the claims are
about (program metadata and timestamps omitted). -/
structure AssessmentRec where
  user_id : Nat
  status : String
  responses : Responses
  overall_score : Option ℚ
  category_scores : Option (List (String × CategoryScore))
  recommendations : Option (List Recommendation)
  deriving Repr, DecidableEq

/-- The assessments table: assessment id → row (primary key as list key). -/
abbrev AssessmentDB := List (Nat × AssessmentRec)

/-- The ownership-scoped query shared by the three assessment handlers:
`db.query(Assessment).filter(Assessment.id == assessment_id,
Assessment.user_id == user.id).first()`. -/
def queryOwned (db : AssessmentDB) (assessmentId userId : Nat) : Option AssessmentRec :=
  (db.find? (fun p => p.1 == assessmentId && p.2.user_id == userId)).map (·.2)

/-- Replace the row of the given assessment id. -/
def setRow (db : AssessmentDB) (assessmentId : Nat) (a : AssessmentRec) : AssessmentDB :=
  db.map (fun p => if p.1 == assessmentId then (p.1, a) else p)

/-- `GET /api/assessments/{assessment_id}`: returns the row or a 404. -/
def get_assessment (db : AssessmentDB) (userId assessmentId : Nat) :
    Except HttpError AssessmentRec :=
  match queryOwned db assessmentId userId with
  | none => .error ⟨404, "Assessment not found"⟩
  | some a => .ok a

/-- `PUT /api/assessments/{assessment_id}/responses`: merges the submitted
responses into the stored map (`current.update(responses)`) or returns a
404; the returned pair is (table after the request, response). -/
def update_responses (db : AssessmentDB) (userId assessmentId : Nat)
    (responses : Responses) : AssessmentDB × Except HttpError String :=
  match queryOwned db assessmentId userId with
  | none => (db, .error ⟨404, "Assessment not found"⟩)
  | some a =>
    let current := dictUpdate a.responses responses
    (setRow db assessmentId { a with responses := current }, .ok "Responses saved")

/-- The completion step applied to one assessment row: computes the result
from the stored responses and writes status, overall score, category scores
and recommendations back onto the row. -/
def completeRec (a : AssessmentRec) (cat : Catalog) : AssessmentRec × CompleteResult :=
  let res := completeResult a.responses cat
  ({ a with
      status := "completed"
      overall_score := some res.overall_score
      category_scores := some res.category_scores
      recommendations := some res.recommendations }, res)

/-- `POST /api/assessments/{assessment_id}/complete`: scores the assessment
and persists the result, or returns a 404; the returned pair is (table
after the request, response). -/
def complete_assessment (db : AssessmentDB) (userId assessmentId : Nat)
    (cat : Catalog) : AssessmentDB × Except HttpError CompleteResult :=
  match queryOwned db assessmentId userId with
  | none => (db, .error ⟨404, "Assessment not found"⟩)
  | some a =>
    let p := completeRec a cat
    (setRow db assessmentId p.1, .ok p.2)

/-- `POST /api/auth/register`: rejects an already-registered email with a
400 before touching the table, otherwise appends the new user row; the
returned pair is (users table after the request, response). `hash` stands
for `pwd_context.hash` (SHA-256 in the code). -/
def register (users : List UserRec) (hash : String → String)
    (newId : Nat) (email password : String) (name organization : Option String) :
    List UserRec × Except HttpError String :=
  if users.any (fun u => u.email == email) then
    (users, .error ⟨400, "Email already registered"⟩)
  else
    (users ++ [{ id := newId, email := email, hashed_password := hash password,
                 name := name, organization := organization }],
     .ok "Registration successful")

/-! ## Spec-side formulations

Direct transcriptions of the scoring formulas as the specification words
them, to be compared with the loop-shaped code embedding above. -/

/-- Spec wording: the category's maximum attainable points, the sum over its
questions of `2 × impact` (impact defaulting to 1). -/
def specCatMax (c : Category) : ℚ :=
  (c.questions.map (fun q => 2 * questionImpact q)).sum

/-- Spec wording: the category's attained points, the sum over its questions
of `2 × impact` for "yes", `1 × impact` for "partial", `0` otherwise. -/
def specCatAttained (r : Responses) (c : Category) : ℚ :=
  (c.questions.map (fun q => qAttained (answerFor r c.id q.id) (questionImpact q))).sum

/-- The claim's raw percentage, word for word: attained over maximum times
100, "with raw percentage 0 when maximum is 0". -/
def claimRawPct (r : Responses) (c : Category) : ℚ :=
  if specCatMax c = 0 then 0 else specCatAttained r c / specCatMax c * 100

/-- The amended raw percentage: attained over maximum times 100 when the
maximum is positive, and 0 otherwise. -/
def specRawPct (r : Responses) (c : Category) : ℚ :=
  if 0 < specCatMax c then specCatAttained r c / specCatMax c * 100 else 0

/-- Spec wording: the sum of the category weights. -/
def specTotalWeight (cat : Catalog) : ℚ :=
  (cat.categories.map (·.weight)).sum

/-- Spec wording: the sum of the weighted contributions, raw percentage
times category weight. -/
def specTotalWeighted (r : Responses) (cat : Catalog) : ℚ :=
  (cat.categories.map (fun c => specRawPct r c * c.weight)).sum

/-- The claim's overall score, word for word: weighted sum over total
weight rounded to one decimal, "and 0 when the total weight is 0" (so the
formula is applied whenever the total weight is nonzero). -/
def claimOverall (r : Responses) (cat : Catalog) : ℚ :=
  if specTotalWeight cat = 0 then 0
  else round1 ((cat.categories.map (fun c => claimRawPct r c * c.weight)).sum / specTotalWeight cat)

/-- The amended overall score: the rounded quotient when the total weight
is positive, and 0 otherwise. -/
def specOverall (r : Responses) (cat : Catalog) : ℚ :=
  if 0 < specTotalWeight cat then round1 (specTotalWeighted r cat / specTotalWeight cat) else 0

/-- Spec wording of the candidate list: the questions whose (defaulted)
answer is "no" or "partial", in encounter order, each mapped to its
recommendation record. -/
def specCandidates (r : Responses) (cat : Catalog) : List Recommendation :=
  cat.categories.flatMap (fun c =>
    (c.questions.filter (fun q =>
        answerFor r c.id q.id == "no" || answerFor r c.id q.id == "partial")).map
      (fun q => mkRec c q (answerFor r c.id q.id)))

/-! ## Bridge lemmas: the loop accumulators equal the spec sums -/

theorem categoryPoints_foldl_eq (r : Responses) (cid : String) (qs : List Question)
    (a b : ℚ) :
    qs.foldl
        (fun ma q =>
          (ma.1 + 2 * questionImpact q,
           ma.2 + qAttained (answerFor r cid q.id) (questionImpact q))) (a, b) =
      (a + (qs.map (fun q => 2 * questionImpact q)).sum,
       b + (qs.map (fun q => qAttained (answerFor r cid q.id) (questionImpact q))).sum) := by
  induction qs generalizing a b with
  | nil => simp
  | cons q qs ih => simp [List.foldl_cons, ih, add_assoc]

theorem categoryPoints_eq (r : Responses) (c : Category) :
    categoryPoints r c = (specCatMax c, specCatAttained r c) := by
  simpa [categoryPoints, specCatMax, specCatAttained] using
    categoryPoints_foldl_eq r c.id c.questions 0 0

theorem rawPct_eq (r : Responses) (c : Category) :
    rawPct r c = specRawPct r c := by
  rw [rawPct, specRawPct, categoryPoints_eq]

theorem completeFold_foldl_eq (r : Responses) (cats : List Category)
    (a b : ℚ) (l : List (String × CategoryScore)) :
    cats.foldl
        (fun acc c =>
          let raw := rawPct r c
          (acc.1 + raw * c.weight, acc.2.1 + c.weight,
           acc.2.2 ++ [(c.id, mkScore c raw)])) (a, b, l) =
      (a + (cats.map (fun c => rawPct r c * c.weight)).sum,
       b + (cats.map (·.weight)).sum,
       l ++ cats.map (fun c => (c.id, mkScore c (rawPct r c)))) := by
  induction cats generalizing a b l with
  | nil => simp
  | cons c cats ih => simp [List.foldl_cons, ih, add_assoc]

theorem completeFold_eq (r : Responses) (cats : List Category) :
    completeFold r cats =
      ((cats.map (fun c => rawPct r c * c.weight)).sum,
       (cats.map (·.weight)).sum,
       cats.map (fun c => (c.id, mkScore c (rawPct r c)))) := by
  simpa [completeFold] using completeFold_foldl_eq r cats 0 0 []

theorem overall_eq (r : Responses) (cat : Catalog) :
    (completeResult r cat).overall_score = specOverall r cat := by
  simp only [completeResult, completeFold_eq, specOverall, specTotalWeighted,
    specTotalWeight]
  congr 1
  simp [rawPct_eq]

theorem category_scores_eq (r : Responses) (cat : Catalog) :
    (completeResult r cat).category_scores =
      cat.categories.map (fun c => (c.id, mkScore c (specRawPct r c))) := by
  simp [completeResult, completeFold_eq, rawPct_eq]

theorem candidates_eq_spec (r : Responses) (cat : Catalog) :
    candidates r cat = specCandidates r cat := by
  unfold candidates specCandidates
  congr 1
  funext c
  induction c.questions with
  | nil => simp
  | cons q qs ih =>
    by_cases h : answerFor r c.id q.id = "no" ∨ answerFor r c.id q.id = "partial" <;>
      simp [candidateFor, List.filter_cons, h, ih]

/-! ## Rounding lemmas -/

theorem round_mono {x y : ℚ} (h : x ≤ y) : round x ≤ round y := by
  rw [round_eq, round_eq]
  exact Int.floor_le_floor (by linarith)

theorem round1_nonneg {x : ℚ} (h : 0 ≤ x) : 0 ≤ round1 x := by
  have h10 : round (0 * 10 : ℚ) ≤ round (x * 10) := round_mono (by linarith)
  rw [show ((0:ℚ) * 10) = 0 by ring, round_zero] at h10
  have : (0:ℚ) ≤ (round (x * 10) : ℤ) := by exact_mod_cast h10
  unfold round1
  positivity

theorem round1_le_100 {x : ℚ} (h : x ≤ 100) : round1 x ≤ 100 := by
  have h10 : round (x * 10) ≤ round ((1000 : ℤ) : ℚ) := round_mono (by push_cast; linarith)
  rw [round_intCast] at h10
  have : ((round (x * 10) : ℤ) : ℚ) ≤ 1000 := by exact_mod_cast h10
  unfold round1
  linarith

theorem round1_intCast (n : ℤ) : round1 ((n : ℤ) : ℚ) = n := by
  unfold round1
  have : ((n : ℚ) * 10) = ((n * 10 : ℤ) : ℚ) := by push_cast; ring
  rw [this, round_intCast]
  push_cast
  field_simp

/-! ## Stability of the recommendation sort -/

theorem orderedInsert_filter_pos {α : Type} (r : α → α → Prop) [DecidableRel r]
    (p : α → Bool) (a : α) (l : List α) (ha : p a = true)
    (h : ∀ b ∈ l, p b = true → r a b) :
    (List.orderedInsert r a l).filter p = a :: l.filter p := by
  induction l with
  | nil => simp [ha]
  | cons b l ih =>
    by_cases hr : r a b
    · simp [List.orderedInsert, hr, ha]
    · have hb : p b = false := by
        cases hpb : p b with
        | false => rfl
        | true => exact absurd (h b (List.mem_cons_self b l) hpb) hr
      simp [List.orderedInsert, hr, List.filter_cons, hb,
        ih (fun x hx hpx => h x (List.mem_cons_of_mem b hx) hpx)]

theorem orderedInsert_filter_neg {α : Type} (r : α → α → Prop) [DecidableRel r]
    (p : α → Bool) (a : α) (l : List α) (ha : p a = false) :
    (List.orderedInsert r a l).filter p = l.filter p := by
  induction l with
  | nil => simp [ha]
  | cons b l ih =>
    by_cases hr : r a b
    · simp [List.orderedInsert, hr, List.filter_cons, ha]
    · simp [List.orderedInsert, hr, List.filter_cons, ih]

/-- Stability of insertion sort, filter form: for a predicate that singles
out one equivalence class of the sort relation, sorting does not change the
filtered subsequence. -/
theorem insertionSort_filter {α : Type} (r : α → α → Prop) [DecidableRel r]
    (p : α → Bool) (hp : ∀ a b, p a = true → p b = true → r a b)
    (l : List α) :
    (List.insertionSort r l).filter p = l.filter p := by
  induction l with
  | nil => rfl
  | cons x xs ih =>
    cases hx : p x with
    | true =>
      rw [List.insertionSort,
        orderedInsert_filter_pos r p x _ hx
          (fun b _ hpb => hp x b hx hpb),
        ih, List.filter_cons, hx]
      simp
    | false =>
      rw [List.insertionSort, orderedInsert_filter_neg r p x _ hx, ih,
        List.filter_cons, hx]
      simp

/-! ## Lookup behaviour of the merge -/

theorem alookup_nil {α : Type} (k : String) : alookup ([] : List (String × α)) k = none := rfl

theorem alookup_cons {α : Type} (k₀ : String) (v₀ : α) (m : List (String × α)) (k : String) :
    alookup ((k₀, v₀) :: m) k = if k₀ == k then some v₀ else alookup m k := by
  cases h : k₀ == k <;> simp [alookup, List.find?, h]

theorem alookup_append {α : Type} (l₁ l₂ : List (String × α)) (k : String) :
    alookup (l₁ ++ l₂) k = (alookup l₁ k).or (alookup l₂ k) := by
  induction l₁ with
  | nil => simp [alookup_nil, Option.or]
  | cons p l ih =>
    rcases p with ⟨k₀, v₀⟩
    by_cases h : k₀ == k <;> simp [alookup_cons, h, ih, Option.or]

theorem alookup_map_overwrite {α : Type} (old new : List (String × α)) (k : String) :
    alookup (old.map (fun p => (p.1, (alookup new p.1).getD p.2))) k =
      (alookup old k).map (fun v => (alookup new k).getD v) := by
  induction old with
  | nil => rfl
  | cons p old ih =>
    rcases p with ⟨k₀, v₀⟩
    by_cases h : k₀ == k
    · have hk : k₀ = k := by simpa using h
      subst hk
      simp [List.map_cons, alookup_cons]
    · simp [List.map_cons, alookup_cons, h, ih]

theorem alookup_filter_fresh {α : Type} (old new : List (String × α)) (k : String) :
    alookup (new.filter (fun p => (alookup old p.1).isNone)) k =
      if (alookup old k).isSome then none else alookup new k := by
  induction new with
  | nil => simp [alookup_nil]
  | cons p new ih =>
    rcases p with ⟨k₁, v₁⟩
    by_cases hk : k₁ == k
    · have hkk : k₁ = k := by simpa using hk
      subst hkk
      rcases hold : alookup old k₁ with _ | v
      · simp [List.filter_cons, hold, alookup_cons, ih]
      · simp [List.filter_cons, hold, ih]
    · rcases hfil : (alookup old k₁).isNone with _ | _ <;>
        simp [List.filter_cons, hfil, alookup_cons, hk, ih]

/-- The merge of `update_responses` seen through lookups: a submitted key
wins, a key only in the stored map keeps its stored value. -/
theorem alookup_dictUpdate {α : Type} (old new : List (String × α)) (k : String) :
    alookup (dictUpdate old new) k = (alookup new k).or (alookup old k) := by
  unfold dictUpdate
  rw [alookup_append, alookup_map_overwrite, alookup_filter_fresh]
  rcases hold : alookup old k with _ | v <;> rcases hnew : alookup new k with _ | w <;>
    simp [Option.or]

/-! ## Bounds on attained points and scores -/

theorem qAttained_nonneg (ans : String) {i : ℚ} (hi : 0 ≤ i) : 0 ≤ qAttained ans i := by
  unfold qAttained
  split_ifs <;> linarith

theorem qAttained_le_twice (ans : String) {i : ℚ} (hi : 0 ≤ i) : qAttained ans i ≤ 2 * i := by
  unfold qAttained
  split_ifs <;> linarith

theorem specCatAttained_nonneg (r : Responses) (c : Category)
    (hi : ∀ q ∈ c.questions, 0 ≤ questionImpact q) :
    0 ≤ specCatAttained r c := by
  apply List.sum_nonneg
  intro x hx
  rcases List.mem_map.mp hx with ⟨q, hq, rfl⟩
  exact qAttained_nonneg _ (hi q hq)

theorem specCatAttained_le_max (r : Responses) (c : Category)
    (hi : ∀ q ∈ c.questions, 0 ≤ questionImpact q) :
    specCatAttained r c ≤ specCatMax c := by
  exact List.sum_le_sum (fun q hq => qAttained_le_twice _ (hi q hq))

theorem specRawPct_nonneg (r : Responses) (c : Category)
    (hi : ∀ q ∈ c.questions, 0 ≤ questionImpact q) :
    0 ≤ specRawPct r c := by
  unfold specRawPct
  split_ifs with h
  · have ha := specCatAttained_nonneg r c hi
    positivity
  · exact le_refl 0

theorem specRawPct_le_100 (r : Responses) (c : Category)
    (hi : ∀ q ∈ c.questions, 0 ≤ questionImpact q) :
    specRawPct r c ≤ 100 := by
  unfold specRawPct
  split_ifs with h
  · have hle := specCatAttained_le_max r c hi
    have hq : specCatAttained r c / specCatMax c ≤ 1 := (div_le_one h).mpr hle
    linarith
  · norm_num

theorem specTotalWeighted_nonneg (r : Responses) (cat : Catalog)
    (hw : ∀ c ∈ cat.categories, 0 ≤ c.weight)
    (hi : ∀ c ∈ cat.categories, ∀ q ∈ c.questions, 0 ≤ questionImpact q) :
    0 ≤ specTotalWeighted r cat := by
  apply List.sum_nonneg
  intro x hx
  rcases List.mem_map.mp hx with ⟨c, hc, rfl⟩
  exact mul_nonneg (specRawPct_nonneg r c (hi c hc)) (hw c hc)

theorem specTotalWeighted_le (r : Responses) (cat : Catalog)
    (hw : ∀ c ∈ cat.categories, 0 ≤ c.weight)
    (hi : ∀ c ∈ cat.categories, ∀ q ∈ c.questions, 0 ≤ questionImpact q) :
    specTotalWeighted r cat ≤ 100 * specTotalWeight cat := by
  have h1 : specTotalWeighted r cat ≤ (cat.categories.map (fun c => 100 * c.weight)).sum :=
    List.sum_le_sum (fun c hc =>
      mul_le_mul_of_nonneg_right (specRawPct_le_100 r c (hi c hc)) (hw c hc))
  have h2 : (cat.categories.map (fun c => 100 * c.weight)).sum = 100 * specTotalWeight cat :=
    List.sum_map_mul_left _ _ _
  linarith

theorem specOverall_nonneg (r : Responses) (cat : Catalog)
    (hw : ∀ c ∈ cat.categories, 0 ≤ c.weight)
    (hi : ∀ c ∈ cat.categories, ∀ q ∈ c.questions, 0 ≤ questionImpact q) :
    0 ≤ specOverall r cat := by
  unfold specOverall
  split_ifs with h
  · exact round1_nonneg (div_nonneg (specTotalWeighted_nonneg r cat hw hi) (le_of_lt h))
  · exact le_refl 0

theorem specOverall_le_100 (r : Responses) (cat : Catalog)
    (hw : ∀ c ∈ cat.categories, 0 ≤ c.weight)
    (hi : ∀ c ∈ cat.categories, ∀ q ∈ c.questions, 0 ≤ questionImpact q) :
    specOverall r cat ≤ 100 := by
  unfold specOverall
  split_ifs with h
  · apply round1_le_100
    rw [div_le_iff₀ h]
    have := specTotalWeighted_le r cat hw hi
    linarith
  · norm_num

/-! ## Claim C1: the scoring formulas of `complete_assessment` -/

/-- The catalog of the C1 counterexample: one category of weight 1 holding
one question of impact `-1`, so its maximum attainable points are `-2`. -/
def c1q : Question := { id := "q1", text := "Q", impact := some (-1), guidance := none }

def c1c : Category := { id := "1", name := "N", weight := 1, questions := [c1q] }

def c1cat : Catalog := { categories := [c1c] }

def c1r : Responses := [("1", [("q1", { answer := some "yes", notes := none })])]

/-- Claim C1, counterexample: the claim computes the raw percentage as
attained/maximum × 100 whenever the maximum is nonzero, but the code takes
that branch only when the maximum is positive.  On a catalog with a
negative-impact question the code reports 0 while the claim's formulas give
100, so the claim as stated is false. -/
theorem C1_counterexample :
    (completeResult c1r c1cat).overall_score = 0 ∧
    claimOverall c1r c1cat = 100 ∧
    claimRawPct c1r c1c = 100 ∧
    (completeResult c1r c1cat).category_scores =
      [("1", { name := "N", raw_score := 0, weighted_score := 0, status := "weak" })] ∧
    (completeResult c1r c1cat).overall_score ≠ claimOverall c1r c1cat := by
  refine ⟨?_, ?_, ?_, ?_, ?_⟩ <;>
    simp [completeResult, completeFold, rawPct, categoryPoints, claimOverall, claimRawPct,
      specCatMax, specCatAttained, specTotalWeight, answerFor, rawAnswer, entryFor,
      catResponsesFor, alookup, qAttained, questionImpact, round1, round2, mkScore, statusOf,
      c1r, c1cat, c1c, c1q, List.find?] <;>
    norm_num [round_eq]

/-- Claim C1, amended: every branch of the claim holds once "maximum is 0" and
"total weight is 0" are read as "not positive", matching the code's
`max_score > 0` and `total_weight > 0` guards: each category's raw
percentage is attained/maximum × 100 when the maximum is positive and 0
otherwise; the overall score is the weighted sum over the total weight,
rounded to one decimal, when the total weight is positive and 0 otherwise;
category status and overall readiness use exactly the 75/50 thresholds. -/
theorem C1_scoring (r : Responses) (cat : Catalog) :
    (completeResult r cat).overall_score = specOverall r cat ∧
    (completeResult r cat).category_scores =
      cat.categories.map (fun c => (c.id, mkScore c (specRawPct r c))) ∧
    (∀ raw : ℚ,
      (statusOf raw = "strong" ↔ 75 ≤ raw) ∧
      (statusOf raw = "adequate" ↔ 50 ≤ raw ∧ raw < 75) ∧
      (statusOf raw = "weak" ↔ raw < 50)) ∧
    (∀ overall : ℚ,
      (readinessOf overall = "ready" ↔ 75 ≤ overall) ∧
      (readinessOf overall = "promising" ↔ 50 ≤ overall ∧ overall < 75) ∧
      (readinessOf overall = "needs_work" ↔ overall < 50)) ∧
    (completeResult r cat).readiness = readinessOf ((completeResult r cat).overall_score) := by
  refine ⟨overall_eq r cat, category_scores_eq r cat, ?_, ?_, ?_⟩
  · intro raw
    unfold statusOf
    refine ⟨?_, ?_, ?_⟩ <;> split_ifs with h₁ h₂ <;> simp_all <;> linarith
  · intro overall
    unfold readinessOf
    refine ⟨?_, ?_, ?_⟩ <;> split_ifs with h₁ h₂ <;> simp_all <;> linarith
  · simp [completeResult]

/-- Claim C1 witness: the amended statement applied to the spec's own worked
example (one category of weight 1, two questions of impact 1, answers
"yes" and "partial"). -/
def wQ1 : Question := { id := "q1", text := "Q1", impact := none, guidance := none }

def wQ2 : Question := { id := "q2", text := "Q2", impact := none, guidance := some "Do it" }

def wC : Category := { id := "1", name := "C", weight := 1, questions := [wQ1, wQ2] }

def wCat : Catalog := { categories := [wC] }

def wR : Responses :=
  [("1", [("q1", { answer := some "yes", notes := none }),
          ("q2", { answer := some "partial", notes := none })])]

theorem C1_scoring_witness :
    (completeResult wR wCat).overall_score = specOverall wR wCat ∧
    (statusOf 75 = "strong" ↔ (75:ℚ) ≤ 75) := by
  exact ⟨(C1_scoring wR wCat).1, ((C1_scoring wR wCat).2.2.1 75).1⟩

/-! ## Claim C2: the merge semantics of `update_responses` -/

def c2old : Responses := [("1", [("q1", { answer := some "yes", notes := none })])]

def c2new : Responses := [("1", [("q2", { answer := some "partial", notes := none })])]

def c2row : AssessmentRec :=
  { user_id := 7, status := "in_progress", responses := c2old,
    overall_score := none, category_scores := none, recommendations := none }

def c2db : AssessmentDB := [(1, c2row)]

/-- Claim C2, counterexample: the claim promises a merge at the (category,
question) leaf, preserving every stored (category, question) entry absent
from the submission.  The code merges with `dict.update` at the category
level: submitting only question `q2` of category `1` wipes the stored
answer for question `q1` of the same category. -/
theorem C2_counterexample :
    rawAnswer c2old "1" "q1" = some "yes" ∧
    rawAnswer c2new "1" "q1" = none ∧
    rawAnswer (dictUpdate c2old c2new) "1" "q1" = none ∧
    (update_responses c2db 7 1 c2new).1 = [(1, { c2row with responses := c2new })] ∧
    (update_responses c2db 7 1 c2new).2 = .ok "Responses saved" := by
  refine ⟨?_, ?_, ?_, ?_, ?_⟩ <;>
    simp [c2old, c2new, c2db, c2row, rawAnswer, entryFor, catResponsesFor, alookup,
      dictUpdate, update_responses, queryOwned, setRow, List.find?]

/-- Claim C2, amended: the merge is shallow, at the category level.  A submitted
category map replaces the same-keyed stored category map wholesale, and a
stored category absent from the submission is preserved unchanged. -/
theorem C2_category_merge (old new : Responses) (k : String) :
    alookup (dictUpdate old new) k = (alookup new k).or (alookup old k) :=
  alookup_dictUpdate old new k

/-! ## Claim C4: completion is deterministic and idempotent -/

/-- Claim C4: the completion result is a pure function of the stored responses
and the catalog, and completing an already-completed assessment recomputes
the identical result and leaves the row unchanged (timestamps aside). -/
theorem C4_idempotent (a : AssessmentRec) (cat : Catalog) :
    (completeRec (completeRec a cat).1 cat).2 = (completeRec a cat).2 ∧
    (completeRec (completeRec a cat).1 cat).1 = (completeRec a cat).1 ∧
    ((completeRec a cat).1).overall_score = some ((completeRec a cat).2).overall_score ∧
    ((completeRec a cat).1).category_scores = some ((completeRec a cat).2).category_scores ∧
    ((completeRec a cat).1).recommendations = some ((completeRec a cat).2).recommendations := by
  refine ⟨?_, ?_, ?_, ?_, ?_⟩ <;> simp [completeRec]

/-! ## Claim C3: the recommendation list -/

/-- Claim C3: the recommendation list of the completion result is the first (at
most) 10 elements of a reordering of the candidate list — the questions
answered "no"/"partial" (missing treated as "no") with priority
weight × impact × (2 for "no", 1 for "partial") — that is sorted by
non-increasing priority score and leaves every priority class in encounter
order (stability). -/
theorem C3_recommendations (r : Responses) (cat : Catalog) :
    ∃ s : List Recommendation,
      s.Perm (specCandidates r cat) ∧
      s.Pairwise priorityGE ∧
      (∀ v : ℚ, s.filter (fun x => x.priority_score == v) =
        (specCandidates r cat).filter (fun x => x.priority_score == v)) ∧
      (completeResult r cat).recommendations = s.take 10 ∧
      (completeResult r cat).recommendations.length ≤ 10 := by
  refine ⟨List.insertionSort priorityGE (candidates r cat), ?_, ?_, ?_, ?_, ?_⟩
  · rw [← candidates_eq_spec]
    exact List.perm_insertionSort _ _
  · exact List.sorted_insertionSort priorityGE _
  · intro v
    rw [← candidates_eq_spec]
    refine insertionSort_filter priorityGE _ (fun a b ha hb => ?_) _
    have h1 : a.priority_score = v := by simpa using ha
    have h2 : b.priority_score = v := by simpa using hb
    unfold priorityGE
    rw [h1, h2]
  · simp [completeResult]
  · simp [completeResult, List.length_take]

theorem C3_recommendations_witness :
    ∃ s : List Recommendation,
      s.Perm (specCandidates wR wCat) ∧
      s.Pairwise priorityGE ∧
      (∀ v : ℚ, s.filter (fun x => x.priority_score == v) =
        (specCandidates wR wCat).filter (fun x => x.priority_score == v)) ∧
      (completeResult wR wCat).recommendations = s.take 10 ∧
      (completeResult wR wCat).recommendations.length ≤ 10 :=
  C3_recommendations wR wCat

/-! ## Claim C5: scores stay within [0, 100] -/

/-- Claim C5: with non-negative weights and impacts, the overall score and every
category raw percentage lie in [0, 100]; an empty category scores 0 and a
zero total weight yields overall 0, with no division taking place. -/
theorem C5_score_bounds (r : Responses) (cat : Catalog)
    (hw : ∀ c ∈ cat.categories, 0 ≤ c.weight)
    (hi : ∀ c ∈ cat.categories, ∀ q ∈ c.questions, 0 ≤ questionImpact q) :
    0 ≤ (completeResult r cat).overall_score ∧
    (completeResult r cat).overall_score ≤ 100 ∧
    (∀ c ∈ cat.categories, 0 ≤ specRawPct r c ∧ specRawPct r c ≤ 100) ∧
    (∀ c ∈ cat.categories,
      0 ≤ round1 (specRawPct r c) ∧ round1 (specRawPct r c) ≤ 100) ∧
    (∀ c ∈ cat.categories, c.questions = [] → specRawPct r c = 0) ∧
    (specTotalWeight cat = 0 → (completeResult r cat).overall_score = 0) := by
  refine ⟨?_, ?_, fun c hc => ⟨specRawPct_nonneg r c (hi c hc), specRawPct_le_100 r c (hi c hc)⟩,
    fun c hc => ⟨round1_nonneg (specRawPct_nonneg r c (hi c hc)),
      round1_le_100 (specRawPct_le_100 r c (hi c hc))⟩, ?_, ?_⟩
  · rw [overall_eq]
    exact specOverall_nonneg r cat hw hi
  · rw [overall_eq]
    exact specOverall_le_100 r cat hw hi
  · intro c hc hempty
    unfold specRawPct specCatMax
    rw [hempty]
    simp
  · intro hzero
    rw [overall_eq]
    unfold specOverall
    rw [hzero]
    simp

theorem C5_score_bounds_witness :
    (∀ c ∈ wCat.categories, 0 ≤ c.weight) ∧
    0 ≤ (completeResult wR wCat).overall_score ∧
    (completeResult wR wCat).overall_score ≤ 100 :=
  ⟨by simp [wCat, wC],
   (C5_score_bounds wR wCat (by simp [wCat, wC])
      (by simp [wCat, wC, wQ1, wQ2, questionImpact])).1,
   (C5_score_bounds wR wCat (by simp [wCat, wC])
      (by simp [wCat, wC, wQ1, wQ2, questionImpact])).2.1⟩

/-! ## Claim C6: all-"yes" answers -/

/-- The C6 counterexample catalog: a single category with a positive weight
and no questions at all. -/
def c6cat : Catalog :=
  { categories := [{ id := "1", name := "E", weight := 1, questions := [] }] }

/-- Claim C6, counterexample: on a catalog whose only category has no questions,
the all-"yes" hypothesis holds vacuously, yet the code scores the empty
category 0 (a zero maximum) and returns overall 0, not 100. -/
theorem C6_counterexample :
    (∀ c ∈ c6cat.categories, ∀ q ∈ c.questions, answerFor ([] : Responses) c.id q.id = "yes") ∧
    (completeResult ([] : Responses) c6cat).overall_score = 0 ∧
    (completeResult ([] : Responses) c6cat).overall_score ≠ 100 := by
  refine ⟨by simp [c6cat], ?_, ?_⟩ <;>
    simp [completeResult, completeFold, rawPct, categoryPoints, c6cat, round1]

/-- Claim C6, amended: if every category has positive maximum attainable points
(so in particular at least one question) and the total weight is positive,
then answering "yes" everywhere yields overall score 100. -/
theorem C6_all_yes (r : Responses) (cat : Catalog)
    (hmax : ∀ c ∈ cat.categories, 0 < specCatMax c)
    (hw : 0 < specTotalWeight cat)
    (hyes : ∀ c ∈ cat.categories, ∀ q ∈ c.questions, answerFor r c.id q.id = "yes") :
    (completeResult r cat).overall_score = 100 := by
  rw [overall_eq]
  have hraw : ∀ c ∈ cat.categories, specRawPct r c = 100 := by
    intro c hc
    have hatt : specCatAttained r c = specCatMax c := by
      unfold specCatAttained specCatMax
      refine congrArg List.sum (List.map_congr_left ?_)
      intro q hq
      rw [hyes c hc q hq]
      simp [qAttained]
    unfold specRawPct
    rw [if_pos (hmax c hc), hatt, div_mul_eq_mul_div, mul_comm, mul_div_assoc,
      div_self (ne_of_gt (hmax c hc)), mul_one]
  unfold specOverall
  rw [if_pos hw]
  have htws : specTotalWeighted r cat = 100 * specTotalWeight cat := by
    unfold specTotalWeighted specTotalWeight
    rw [List.map_congr_left (fun c hc => by rw [hraw c hc])]
    exact List.sum_map_mul_left _ _ _
  rw [htws, mul_div_assoc, div_self (ne_of_gt hw), mul_one]
  have h100 : ((100 : ℚ)) = (((100 : ℤ) : ℚ)) := by norm_num
  rw [h100, round1_intCast]

def c6wQ : Question := { id := "q1", text := "Q", impact := none, guidance := none }

def c6wCat : Catalog :=
  { categories := [{ id := "1", name := "C", weight := 1, questions := [c6wQ] }] }

def c6wR : Responses := [("1", [("q1", { answer := some "yes", notes := none })])]

theorem C6_all_yes_witness :
    (0 : ℚ) < specTotalWeight c6wCat ∧
    (completeResult c6wR c6wCat).overall_score = 100 :=
  ⟨by norm_num [specTotalWeight, c6wCat],
   C6_all_yes c6wR c6wCat
     (by intro c hc; simp [c6wCat] at hc; subst hc; norm_num [specCatMax, c6wQ, questionImpact])
     (by norm_num [specTotalWeight, c6wCat])
     (by
       intro c hc q hq
       simp [c6wCat] at hc
       subst hc
       simp [c6wQ] at hq
       subst hq
       simp [answerFor, rawAnswer, entryFor, catResponsesFor, alookup, c6wR, c6wQ, List.find?])⟩

/-! ## Claim C7: all-"no"/unanswered answers -/

/-- Claim C7: if every question's (defaulted) answer is "no" — covering both an
explicit "no" and a missing answer — the overall score is 0 and every
question of every category contributes a candidate recommendation (before
truncation). -/
theorem C7_all_no (r : Responses) (cat : Catalog)
    (hno : ∀ c ∈ cat.categories, ∀ q ∈ c.questions, answerFor r c.id q.id = "no") :
    (completeResult r cat).overall_score = 0 ∧
    ∀ c ∈ cat.categories, ∀ q ∈ c.questions, mkRec c q "no" ∈ candidates r cat := by
  constructor
  · rw [overall_eq]
    have hraw : ∀ c ∈ cat.categories, specRawPct r c = 0 := by
      intro c hc
      have hatt : specCatAttained r c = 0 := by
        refine List.sum_eq_zero ?_
        intro x hx
        rcases List.mem_map.mp hx with ⟨q, hq, rfl⟩
        rw [hno c hc q hq]
        simp [qAttained]
      unfold specRawPct
      split_ifs with h
      · rw [hatt]
        simp
      · rfl
    unfold specOverall
    split_ifs with h
    · have htws : specTotalWeighted r cat = 0 := by
        refine List.sum_eq_zero ?_
        intro x hx
        rcases List.mem_map.mp hx with ⟨c, hc, rfl⟩
        rw [hraw c hc]
        simp
      rw [htws, zero_div]
      have h0 : ((0 : ℚ)) = (((0 : ℤ) : ℚ)) := by norm_num
      rw [h0, round1_intCast]
    · rfl
  · intro c hc q hq
    unfold candidates
    rw [List.mem_flatMap]
    refine ⟨c, hc, ?_⟩
    rw [List.mem_filterMap]
    refine ⟨q, hq, ?_⟩
    unfold candidateFor
    rw [hno c hc q hq]
    simp

theorem C7_all_no_witness :
    (completeResult ([] : Responses) wCat).overall_score = 0 ∧
    mkRec wC wQ1 "no" ∈ candidates ([] : Responses) wCat := by
  have h := C7_all_no ([] : Responses) wCat
    (by
      intro c hc q hq
      simp [answerFor, rawAnswer, entryFor, catResponsesFor, alookup, List.find?])
  exact ⟨h.1, h.2 wC (by simp [wCat]) wQ1 (by simp [wC])⟩

/-! ## Claim C8: ownership scoping of the assessment handlers -/

theorem queryOwned_eq_none {db : AssessmentDB} {aid uid : Nat}
    (h : ∀ p ∈ db, p.1 = aid → p.2.user_id ≠ uid) :
    queryOwned db aid uid = none := by
  unfold queryOwned
  rw [List.find?_eq_none.mpr]
  · rfl
  · intro x hx
    simp only [Bool.and_eq_true, beq_iff_eq]
    rintro ⟨h1, h2⟩
    exact h x hx h1 h2

theorem queryOwned_some {db : AssessmentDB} {aid uid : Nat} {a : AssessmentRec}
    (h : queryOwned db aid uid = some a) :
    ∃ p ∈ db, p.1 = aid ∧ p.2.user_id = uid ∧ p.2 = a := by
  unfold queryOwned at h
  rcases hf : db.find? (fun p => p.1 == aid && p.2.user_id == uid) with _ | p
  · rw [hf] at h
    exact absurd h (by simp)
  · rw [hf] at h
    have hpred := List.find?_some hf
    simp only [Bool.and_eq_true, beq_iff_eq] at hpred
    exact ⟨p, List.mem_of_find?_eq_some hf, hpred.1, hpred.2, by simpa using h⟩

/-- Claim C8: the three assessment handlers look an assessment up by id *and*
owner.  When the assessment's owner is a different user they all answer 404
"Assessment not found" — the same error as for a missing id, and never a
403 — and leave the table untouched; and whenever one of them succeeds, the
table really holds that assessment id owned by the requesting user. -/
theorem C8_ownership (db : AssessmentDB) (uid aid : Nat) (new : Responses) (cat : Catalog)
    (h : ∀ p ∈ db, p.1 = aid → p.2.user_id ≠ uid) :
    get_assessment db uid aid = .error ⟨404, "Assessment not found"⟩ ∧
    update_responses db uid aid new = (db, .error ⟨404, "Assessment not found"⟩) ∧
    complete_assessment db uid aid cat = (db, .error ⟨404, "Assessment not found"⟩) ∧
    (∀ e : HttpError, get_assessment db uid aid = .error e →
      e.status_code = 404 ∧ e.status_code ≠ 403) ∧
    (∀ (db' : AssessmentDB) (a : AssessmentRec), get_assessment db' uid aid = .ok a →
      ∃ p ∈ db', p.1 = aid ∧ p.2.user_id = uid ∧ p.2 = a) ∧
    (∀ (db' : AssessmentDB) (r' : Responses) (m : String),
      (update_responses db' uid aid r').2 = .ok m →
      ∃ p ∈ db', p.1 = aid ∧ p.2.user_id = uid) ∧
    (∀ (db' : AssessmentDB) (res : CompleteResult),
      (complete_assessment db' uid aid cat).2 = .ok res →
      ∃ p ∈ db', p.1 = aid ∧ p.2.user_id = uid) := by
  have hq := queryOwned_eq_none h
  refine ⟨?_, ?_, ?_, ?_, ?_, ?_, ?_⟩
  · simp [get_assessment, hq]
  · simp [update_responses, hq]
  · simp [complete_assessment, hq]
  · intro e he
    simp [get_assessment, hq] at he
    simp [← he]
  · intro db' a ha
    unfold get_assessment at ha
    rcases hf : queryOwned db' aid uid with _ | b
    · rw [hf] at ha
      exact absurd ha (by simp)
    · rw [hf] at ha
      rcases queryOwned_some hf with ⟨p, hp, h1, h2, _⟩
      exact ⟨p, hp, h1, h2, by simp_all⟩
  · intro db' r' m hm
    unfold update_responses at hm
    rcases hf : queryOwned db' aid uid with _ | b
    · rw [hf] at hm
      exact absurd hm (by simp)
    · rcases queryOwned_some hf with ⟨p, hp, h1, h2, _⟩
      exact ⟨p, hp, h1, h2⟩
  · intro db' res hres
    unfold complete_assessment at hres
    rcases hf : queryOwned db' aid uid with _ | b
    · rw [hf] at hres
      exact absurd hres (by simp)
    · rcases queryOwned_some hf with ⟨p, hp, h1, h2, _⟩
      exact ⟨p, hp, h1, h2⟩

theorem C8_ownership_witness :
    (∀ p ∈ c2db, p.1 = 1 → p.2.user_id ≠ 3) ∧
    get_assessment c2db 3 1 = .error ⟨404, "Assessment not found"⟩ := by
  have hhyp : ∀ p ∈ c2db, p.1 = 1 → p.2.user_id ≠ 3 := by
    intro p hp
    simp [c2db, c2row] at hp
    simp [hp, c2row]
  exact ⟨hhyp, (C8_ownership c2db 3 1 [] c6cat hhyp).1⟩

/-! ## Claim C9: duplicate registration -/

/-- Claim C9: registering an email that already has a user row fails with the
explicit 400 "Email already registered" error and returns the users table
unchanged — no row is added and nothing is thrown past the handler. -/
theorem C9_duplicate_email (users : List UserRec) (hash : String → String)
    (newId : Nat) (email password : String) (name organization : Option String)
    (h : ∃ u ∈ users, u.email = email) :
    register users hash newId email password name organization =
      (users, .error ⟨400, "Email already registered"⟩) := by
  have hany : users.any (fun u => u.email == email) = true := by
    rcases h with ⟨u, hu, he⟩
    exact List.any_eq_true.mpr ⟨u, hu, by simp [he]⟩
  simp [register, hany]

def c9user : UserRec :=
  { id := 1, email := "a@example.com", hashed_password := "h", name := none,
    organization := none }

theorem C9_duplicate_email_witness :
    (∃ u ∈ [c9user], u.email = "a@example.com") ∧
    register [c9user] id 2 "a@example.com" "pw" none none =
      ([c9user], .error ⟨400, "Email already registered"⟩) :=
  ⟨⟨c9user, by simp, rfl⟩,
   C9_duplicate_email [c9user] id 2 "a@example.com" "pw" none none
     ⟨c9user, by simp, rfl⟩⟩

/-! ## Claim C10: unvalidated answer strings -/

/-- Claim C10: a stored answer string outside {"yes", "partial", "no"} scores 0
attained points — exactly as "no" does — but, unlike a missing answer
(which defaults to "no"), produces no recommendation candidate; every
candidate the operation emits carries current answer "no" or "partial". -/
theorem C10_unvalidated_answer (r : Responses) (cat : Catalog) (c : Category) (q : Question)
    (hc : c ∈ cat.categories) (hq : q ∈ c.questions)
    (h1 : answerFor r c.id q.id ≠ "yes")
    (h2 : answerFor r c.id q.id ≠ "partial")
    (h3 : answerFor r c.id q.id ≠ "no") :
    qAttained (answerFor r c.id q.id) (questionImpact q) = 0 ∧
    qAttained "no" (questionImpact q) = 0 ∧
    candidateFor r c q = none ∧
    (∀ r' : Responses, rawAnswer r' c.id q.id = none →
      candidateFor r' c q = some (mkRec c q "no")) ∧
    (∀ rec ∈ candidates r cat,
      rec.current_answer = "no" ∨ rec.current_answer = "partial") := by
  refine ⟨?_, ?_, ?_, ?_, ?_⟩
  · simp [qAttained, h1, h2]
  · simp [qAttained]
  · simp [candidateFor, h2, h3]
  · intro r' hr'
    have hdef : answerFor r' c.id q.id = "no" := by
      simp [answerFor, hr']
    simp [candidateFor, hdef]
  · intro rec hrec
    unfold candidates at hrec
    rcases List.mem_flatMap.mp hrec with ⟨c', _, hmem⟩
    rcases List.mem_filterMap.mp hmem with ⟨q', _, hcand⟩
    unfold candidateFor at hcand
    by_cases hno : answerFor r c'.id q'.id = "no" ∨ answerFor r c'.id q'.id = "partial"
    · rw [if_pos hno] at hcand
      have : rec.current_answer = answerFor r c'.id q'.id := by
        rw [← Option.some_inj.mp hcand]
        rfl
      rw [this]
      exact hno
    · rw [if_neg hno] at hcand
      exact absurd hcand (by simp)

def c10r : Responses := [("1", [("q1", { answer := some "maybe", notes := none })])]

theorem C10_unvalidated_answer_witness :
    answerFor c10r wC.id wQ1.id ≠ "yes" ∧
    qAttained (answerFor c10r wC.id wQ1.id) (questionImpact wQ1) = 0 ∧
    candidateFor c10r wC wQ1 = none := by
  have hans : answerFor c10r wC.id wQ1.id = "maybe" := by
    simp [answerFor, rawAnswer, entryFor, catResponsesFor, alookup, c10r, wC, wQ1, List.find?]
  have h := C10_unvalidated_answer c10r wCat wC wQ1
    (by simp [wCat]) (by simp [wC])
    (by rw [hans]; decide) (by rw [hans]; decide) (by rw [hans]; decide)
  exact ⟨by rw [hans]; decide, h.1, h.2.2.1⟩

end FBES
